import Mathlib

/-!
Verification of the TaterTot article-collection pipeline
(`src/backend/testCollector.py`, class `CustomArticleCollector`).

Strings are modelled as Lean `String`s; Python's substring test `needle in
haystack` is modelled by `occursIn` on `List Char`, and `str.lower()` by
mapping `Char.toLower` (the sources only use ASCII keywords).  Python floats
carry only small decimal constants here (keyword weights and bonus factors),
so scores are modelled exactly as rationals.  Network and XML-parsing
effects are passed in explicitly: a fetch-and-parse environment is a
function `String → Option XmlDoc`, and the four body-decode strategies of a
sitemap response are the four `Option String` fields of `SitemapResponse`.
-/

/-- Python `needle in haystack` modelled on `List Char`:
`startsWithChars n h` is true iff `n` is a prefix of `h`. -/
def startsWithChars (needle hay : List Char) : Bool :=
  needle.isPrefixOf hay

/-- Python `needle in haystack`: true iff `needle` occurs as a contiguous
substring of `hay`. -/
def occursIn (needle : List Char) : List Char → Bool
  | [] => needle.isEmpty
  | c :: t => startsWithChars needle (c :: t) || occursIn needle t

/-- Python `s.lower()` applied to a string, as a character list. -/
def lowerChars (s : String) : List Char :=
  s.toList.map Char.toLower

/-- Python `s.lower()` as a string. -/
def lowerString (s : String) : String :=
  String.mk (s.toList.map Char.toLower)

/-- Python `url.rstrip(\x27/\x27)`: remove all trailing slash characters. -/
def stripSlash (l : List Char) : List Char :=
  (l.reverse.dropWhile (fun c => c == '/')).reverse

/-- The configured keyword list `self.luxury_keywords`
(`testCollector.py` lines 48-61), in source order.  Note the five
mixed-case entries at the end. -/
def luxury_keywords : List String :=
  [ "luxury", "jewellery", "fine jewellery", "craftsmanship",
    "jewelry", "diamond", "engagement ring", "wedding ring",
    "fashion", "accessories", "watches", "timepiece",
    "necklace", "bracelet", "earrings", "pendant", "brooch",
    "gold", "platinum", "silver", "emerald", "sapphire", "ruby",
    "cartier", "tiffany", "bulgari", "chanel", "dior", "van cleef",
    "graff", "harry winston", "chopard", "piaget", "boucheron",
    "red carpet", "celebrity", "haute couture", "collection",
    "launch", "collaboration", "limited edition", "auction",
    "investment", "trends", "style", "fashion week", "royal", "royals",
    "Luxury sector", "Luxury marketing trends", "Lab grown diamonds",
    "Diamond price", "Gold price", "jewels" ]

/-- Branch list "Core priority keywords" in `calculate_relevance_score`
(weight 4.0). -/
def core_priority_keywords : List String :=
  [ "jewellery", "fine jewellery", "craftsmanship", "royal", "royals",
    "fashion week", "jewels" ]

/-- Branch list "Primary jewelry terms" (weight 5.0).  The last five
entries are mixed-case exactly as in the source. -/
def primary_jewelry_terms : List String :=
  [ "jewelry", "diamond", "engagement ring", "wedding ring",
    "Lab grown diamonds", "Diamond price", "Gold price", "Luxury sector",
    "Luxury marketing trends" ]

/-- Branch list "Jewelry pieces and materials" (weight 5.0). -/
def jewelry_piece_terms : List String :=
  [ "necklace", "bracelet", "earrings", "pendant", "brooch",
    "gold", "platinum", "silver", "emerald", "sapphire", "ruby" ]

/-- Branch list "Premium luxury brands" (weight 3.5). -/
def premium_brand_terms : List String :=
  [ "cartier", "tiffany", "bulgari", "chanel", "dior", "van cleef",
    "graff", "harry winston", "chopard", "piaget", "boucheron" ]

/-- Branch list "Fashion and luxury terms" (weight 2.5). -/
def fashion_luxury_terms : List String :=
  [ "fashion", "accessories", "watches", "timepiece", "collection",
    "launch", "haute couture", "limited edition" ]

/-- Branch list "Events and celebrity" (weight 2.0). -/
def event_celebrity_terms : List String :=
  [ "red carpet", "celebrity", "auction", "luxury" ]

/-- Branch list "Industry terms" (weight 0.5). -/
def industry_terms : List String :=
  [ "collaboration", "investment", "trends", "style" ]

/-- The per-keyword weight: the if/elif chain of
`calculate_relevance_score` (lines 456-482), applied to
`keyword.lower()`; a keyword in none of the branch lists falls through to
the `else` branch and contributes 1.0. -/
def keyword_weight (kw : String) : ℚ :=
  let k := lowerString kw
  if k ∈ core_priority_keywords then 4.0
  else if k ∈ primary_jewelry_terms then 5.0
  else if k ∈ jewelry_piece_terms then 5.0
  else if k ∈ premium_brand_terms then 3.5
  else if k ∈ fashion_luxury_terms then 2.5
  else if k ∈ event_celebrity_terms then 2.0
  else if k ∈ industry_terms then 0.5
  else 1.0

/-- Python `f"\x7btitle\x7d \x7bcontent\x7d".lower()`: the space-joined,
lower-cased text both scorers and the domain validator run over. -/
def combined_text (title content : String) : List Char :=
  lowerChars (title ++ " " ++ content)

/-- Python `keyword.lower() in combined_text`. -/
def keyword_matches (kw : String) (combined : List Char) : Bool :=
  occursIn (lowerChars kw) combined

/-- The accumulation loop of `calculate_relevance_score` (lines 452-482):
fold over `luxury_keywords`, and for each matching keyword append it to
`found_keywords` and add its weight to the running score. -/
def score_loop (combined : List Char) : ℚ × List String :=
  luxury_keywords.foldl
    (fun acc kw =>
      if keyword_matches kw combined then
        (acc.1 + keyword_weight kw, acc.2 ++ [kw])
      else acc)
    (0, [])

/-- `calculate_relevance_score(title, content)` (lines 444-490): the
Stage-2 score.  After the keyword loop, a multiplicative bonus of 1.2 is
applied once more than 2 keywords matched, and a further 1.4 once more
than 4 matched. -/
def calculate_relevance_score (title content : String) : ℚ × List String :=
  let combined := combined_text title content
  let p := score_loop combined
  let score1 := if p.2.length > 2 then p.1 * 1.2 else p.1
  let score2 := if p.2.length > 4 then score1 * 1.4 else score1
  (score2, p.2)

/-- `calculate_title_relevance_score(title, url)` (lines 425-442): the
Stage-1 score is 1.0 per matching keyword over the lower-cased
title-plus-URL text. -/
def calculate_title_relevance_score (title url : String) : ℚ × List String :=
  let combined := combined_text title url
  let found := luxury_keywords.filter (fun kw => keyword_matches kw combined)
  (found.length * 1.0, found)

/-- The keywords the Stage-2 loop collects, as a filter of the configured
list. -/
def found_keywords (combined : List Char) : List String :=
  luxury_keywords.filter (fun kw => keyword_matches kw combined)

/-- The two escalating bonus multipliers of Stage 2, as a function of the
pre-bonus score and the number of matched keywords. -/
def apply_bonus (s : ℚ) (n : ℕ) : ℚ :=
  let s1 := if n > 2 then s * 1.2 else s
  if n > 4 then s1 * 1.4 else s1

theorem score_loop_foldl (l : List String) (combined : List Char)
    (s : ℚ) (ks : List String) :
    l.foldl
      (fun acc kw =>
        if keyword_matches kw combined then
          (acc.1 + keyword_weight kw, acc.2 ++ [kw])
        else acc)
      (s, ks)
    = (s + ((l.filter (fun kw => keyword_matches kw combined)).map
          keyword_weight).sum,
       ks ++ l.filter (fun kw => keyword_matches kw combined)) := by
  induction l generalizing s ks with
  | nil => simp
  | cons kw t ih =>
    simp only [List.foldl_cons, List.filter_cons]
    by_cases h : keyword_matches kw combined
    · simp only [h, if_true, ih, List.map_cons, List.sum_cons, Prod.mk.injEq]
      exact ⟨by ring, by simp⟩
    · simp only [h, Bool.false_eq_true, if_false, ih]

theorem score_loop_eq (combined : List Char) :
    score_loop combined
      = (((found_keywords combined).map keyword_weight).sum,
         found_keywords combined) := by
  unfold score_loop found_keywords
  rw [score_loop_foldl]
  simp

theorem score_loop_fst (combined : List Char) :
    (score_loop combined).1
      = ((found_keywords combined).map keyword_weight).sum := by
  rw [score_loop_eq]

theorem score_loop_snd (combined : List Char) :
    (score_loop combined).2 = found_keywords combined := by
  rw [score_loop_eq]

theorem calculate_relevance_score_eq (title content : String) :
    calculate_relevance_score title content
      = (apply_bonus
            (((found_keywords (combined_text title content)).map
                keyword_weight).sum)
            (found_keywords (combined_text title content)).length,
         found_keywords (combined_text title content)) := by
  simp only [calculate_relevance_score, apply_bonus, score_loop_fst,
    score_loop_snd]

theorem keyword_weight_nonneg (kw : String) : 0 ≤ keyword_weight kw := by
  simp only [keyword_weight]
  split_ifs <;> norm_num

theorem filter_sublist_of_imp {α : Type} (l : List α) (p q : α → Bool)
    (h : ∀ a ∈ l, p a = true → q a = true) :
    List.Sublist (l.filter p) (l.filter q) := by
  induction l with
  | nil => simp
  | cons a t ih =>
    have ht : ∀ b ∈ t, p b = true → q b = true := fun b hb => h b (by simp [hb])
    by_cases hp : p a
    · have hq : q a = true := h a (by simp) hp
      simp only [List.filter_cons, hp, hq, if_true]
      exact (ih ht).cons₂ a
    · simp only [List.filter_cons, hp, Bool.false_eq_true, if_false]
      by_cases hq : q a
      · simp only [hq, if_true]
        exact (ih ht).cons a
      · simp only [hq, Bool.false_eq_true, if_false]
        exact ih ht

theorem weight_sum_nonneg (l : List String) :
    0 ≤ (l.map keyword_weight).sum := by
  induction l with
  | nil => simp
  | cons a t ih =>
    simp only [List.map_cons, List.sum_cons]
    have := keyword_weight_nonneg a
    linarith

theorem apply_bonus_mono {s s' : ℚ} {n n' : ℕ} (hs0 : 0 ≤ s)
    (hs : s ≤ s') (hn : n ≤ n') : apply_bonus s n ≤ apply_bonus s' n' := by
  simp only [apply_bonus]
  split_ifs <;> linarith

/-- C1: the Stage-2 score returned by `calculate_relevance_score` is
monotonically non-decreasing in the set of matched keywords: if every
keyword matching `(title, content)` still matches `(title, content')` and
one additional configured keyword `k` matches the extended content, the
returned score does not decrease. -/
theorem stage2_score_monotone (title content content' : String)
    (hkeep : ∀ kw ∈ luxury_keywords,
      keyword_matches kw (combined_text title content) = true →
      keyword_matches kw (combined_text title content') = true)
    (k : String) (hk : k ∈ luxury_keywords)
    (hknew : keyword_matches k (combined_text title content) = false)
    (hknew' : keyword_matches k (combined_text title content') = true) :
    (calculate_relevance_score title content).1
      ≤ (calculate_relevance_score title content').1 := by
  have hsub : List.Sublist (found_keywords (combined_text title content))
      (found_keywords (combined_text title content')) :=
    filter_sublist_of_imp luxury_keywords _ _ hkeep
  have hsum : ((found_keywords (combined_text title content)).map
        keyword_weight).sum
      ≤ ((found_keywords (combined_text title content')).map
        keyword_weight).sum := by
    refine List.Sublist.sum_le_sum (hsub.map keyword_weight) ?_
    intro a ha
    obtain ⟨kw, _, rfl⟩ := List.mem_map.mp ha
    exact keyword_weight_nonneg kw
  have hlen : (found_keywords (combined_text title content)).length
      ≤ (found_keywords (combined_text title content')).length :=
    hsub.length_le
  rw [calculate_relevance_score_eq, calculate_relevance_score_eq]
  exact apply_bonus_mono (weight_sum_nonneg _) hsum hlen

/-- Concrete instance of C1: extending content "gold" to "gold silver"
adds the matching keyword "silver" and does not lower the score. -/
theorem stage2_score_monotone_witness :
    (calculate_relevance_score "" "gold").1
      ≤ (calculate_relevance_score "" "gold silver").1 :=
  stage2_score_monotone "" "gold" "gold silver" (by decide) "silver"
    (by decide) (by decide) (by decide)

/-- The core-vocabulary list of `is_luxury_relevant_content`
(`testCollector.py` lines 602-610). -/
def core_luxury_terms : List String :=
  [ "jewellery", "jewelry", "jeweler", "jeweller",
    "diamond", "necklace", "bracelet", "earring", "ring", "brooch",
    "pendant",
    "cartier", "tiffany", "bulgari", "chanel", "van cleef",
    "graff", "harry winston", "chopard", "piaget", "boucheron",
    "gemstone", "emerald", "sapphire", "ruby", "pearl",
    "fine jewellery", "high jewelry", "haute joaillerie",
    "luxury brand", "luxury fashion", "luxury goods" ]

/-- `is_luxury_relevant_content(title, content)` (lines 594-614): true iff
the lower-cased title-plus-content contains at least one core term. -/
def is_luxury_relevant_content (title content : String) : Bool :=
  let combined := combined_text title content
  core_luxury_terms.any (fun term => occursIn term.toList combined)

/-- C6: the domain-validation predicate returns false whenever the
combined lower-cased text contains zero core-vocabulary terms (whatever
its numeric Stage-2 score), and true whenever at least one core term is
contained. -/
theorem domain_validation_spec (title content : String) :
    ((∀ term ∈ core_luxury_terms,
        occursIn term.toList (combined_text title content) = false) →
      is_luxury_relevant_content title content = false)
    ∧ ((∃ term ∈ core_luxury_terms,
        occursIn term.toList (combined_text title content) = true) →
      is_luxury_relevant_content title content = true) := by
  constructor
  · intro h
    simp only [is_luxury_relevant_content, List.any_eq_false]
    intro term hterm
    simp only [h term hterm, Bool.false_eq_true, not_false_eq_true]
  · rintro ⟨term, hterm, hocc⟩
    simp only [is_luxury_relevant_content, List.any_eq_true]
    exact ⟨term, hterm, hocc⟩

/-- Concrete instance of C6: text full of peripheral keywords but with no
core term fails validation (even though its Stage-2 score is high), and a
text containing a core term passes. -/
theorem domain_validation_spec_witness :
    is_luxury_relevant_content ""
      "fashion style celebrity trends investment launch" = false
    ∧ is_luxury_relevant_content "" "a diamond brooch" = true :=
  ⟨ (domain_validation_spec ""
      "fashion style celebrity trends investment launch").1 (by decide),
    (domain_validation_spec "" "a diamond brooch").2
      ⟨"diamond", by decide, by decide⟩ ⟩

theorem keyword_weight_of_default (kw : String)
    (h1 : lowerString kw ∉ core_priority_keywords)
    (h2 : lowerString kw ∉ primary_jewelry_terms)
    (h3 : lowerString kw ∉ jewelry_piece_terms)
    (h4 : lowerString kw ∉ premium_brand_terms)
    (h5 : lowerString kw ∉ fashion_luxury_terms)
    (h6 : lowerString kw ∉ event_celebrity_terms)
    (h7 : lowerString kw ∉ industry_terms) :
    keyword_weight kw = 1.0 := by
  simp only [keyword_weight]
  rw [if_neg h1, if_neg h2, if_neg h3, if_neg h4, if_neg h5, if_neg h6,
    if_neg h7]

theorem keyword_weight_of_primary (kw : String)
    (h1 : lowerString kw ∉ core_priority_keywords)
    (h2 : lowerString kw ∈ primary_jewelry_terms) :
    keyword_weight kw = 5.0 := by
  simp only [keyword_weight]
  rw [if_neg h1, if_pos h2]

/-- C9: the five mixed-case configured keywords never match their
intended 5.0-weight branch (the membership test compares the lower-cased
keyword against mixed-case list entries), so each falls through to the
default branch and contributes exactly 1.0; e.g. content containing
"lab grown diamonds" scores 5.0 for "diamond" plus 1.0 for the
mixed-case keyword, a total of 6.0. -/
theorem mixed_case_keywords_default_weight :
    keyword_weight "Lab grown diamonds" = 1
    ∧ keyword_weight "Diamond price" = 1
    ∧ keyword_weight "Gold price" = 1
    ∧ keyword_weight "Luxury sector" = 1
    ∧ keyword_weight "Luxury marketing trends" = 1
    ∧ "Lab grown diamonds" ∈ luxury_keywords
    ∧ "Diamond price" ∈ luxury_keywords
    ∧ "Gold price" ∈ luxury_keywords
    ∧ "Luxury sector" ∈ luxury_keywords
    ∧ "Luxury marketing trends" ∈ luxury_keywords
    ∧ lowerString "Lab grown diamonds" ∉ primary_jewelry_terms
    ∧ lowerString "Diamond price" ∉ primary_jewelry_terms
    ∧ lowerString "Gold price" ∉ primary_jewelry_terms
    ∧ lowerString "Luxury sector" ∉ primary_jewelry_terms
    ∧ lowerString "Luxury marketing trends" ∉ primary_jewelry_terms
    ∧ calculate_relevance_score "" "lab grown diamonds"
        = (6, ["diamond", "Lab grown diamonds"]) := by
  have hd : ∀ kw ∈ ["Lab grown diamonds", "Diamond price", "Gold price",
      "Luxury sector", "Luxury marketing trends"], keyword_weight kw = 1 := by
    intro kw hkw
    have h1 : keyword_weight kw = 1.0 := by
      fin_cases hkw <;>
        exact keyword_weight_of_default _ (by decide) (by decide) (by decide)
          (by decide) (by decide) (by decide) (by decide)
    rw [h1]
    norm_num
  have hscore : calculate_relevance_score "" "lab grown diamonds"
      = (6, ["diamond", "Lab grown diamonds"]) := by
    rw [calculate_relevance_score_eq]
    have hf : found_keywords (combined_text "" "lab grown diamonds")
        = ["diamond", "Lab grown diamonds"] := by decide
    rw [hf]
    have h5 : keyword_weight "diamond" = 5.0 :=
      keyword_weight_of_primary _ (by decide) (by decide)
    have h1 : keyword_weight "Lab grown diamonds" = 1 :=
      hd _ (by simp)
    simp only [apply_bonus, List.map_cons, List.map_nil, List.sum_cons,
      List.sum_nil, List.length_cons, List.length_nil, h5, h1,
      Prod.mk.injEq]
    norm_num
  exact ⟨hd _ (by simp), hd _ (by simp), hd _ (by simp), hd _ (by simp),
    hd _ (by simp), by decide, by decide, by decide, by decide, by decide,
    by decide, by decide, by decide, by decide, by decide, hscore⟩

/-- C10: domain validation tests raw substring containment, so any text
whose lower-cased form contains "ring" — even inside an unrelated word —
passes `is_luxury_relevant_content`. -/
theorem ring_substring_overmatch (title content : String)
    (h : occursIn "ring".toList (combined_text title content) = true) :
    is_luxury_relevant_content title content = true := by
  simp only [is_luxury_relevant_content, List.any_eq_true]
  exact ⟨"ring", by decide, h⟩

/-- Concrete instance of C10: "during the spring sale" contains no
jewelry vocabulary yet passes domain validation via the substring
"ring" inside "during"/"spring". -/
theorem ring_substring_overmatch_witness :
    occursIn "ring".toList (combined_text "" "during the spring sale")
        = true
    ∧ is_luxury_relevant_content "" "during the spring sale" = true :=
  ⟨by decide,
   ring_substring_overmatch "" "during the spring sale" (by decide)⟩

theorem startsWithChars_iff (n h : List Char) :
    startsWithChars n h = true ↔ n <+: h := by
  simp [startsWithChars]

theorem occursIn_iff (n h : List Char) : occursIn n h = true ↔ n <:+: h := by
  induction h with
  | nil => simp [occursIn, List.isEmpty_iff]
  | cons c t ih =>
    simp only [occursIn, Bool.or_eq_true, startsWithChars_iff, ih]
    exact List.infix_cons_iff.symm

theorem infix_of_infix_concat {l xs : List Char} {c : Char}
    (hne : l ≠ []) (hc : c ∉ l) (h : l <:+: xs ++ [c]) : l <:+: xs := by
  obtain ⟨s, t, hst⟩ := h
  rcases List.eq_nil_or_concat t with rfl | ⟨t', c', rfl⟩
  · rcases List.eq_nil_or_concat l with rfl | ⟨l', c'', rfl⟩
    · exact absurd rfl hne
    · rw [List.append_nil, List.concat_eq_append, ← List.append_assoc]
        at hst
      obtain ⟨h1, h2⟩ := List.append_inj' hst (by simp)
      have hcc : c'' = c := by simpa using h2
      subst hcc
      exact absurd (by simp [List.concat_eq_append]) hc
  · rw [List.concat_eq_append, ← List.append_assoc] at hst
    obtain ⟨h1, h2⟩ := List.append_inj' hst (by simp)
    exact ⟨s, t', h1⟩

theorem infix_append_replicate_slash {kw base : List Char}
    (hne : kw ≠ []) (hs : ('/' : Char) ∉ kw) :
    ∀ n, kw <:+: base ++ List.replicate n '/' → kw <:+: base := by
  intro n
  induction n with
  | zero => simpa using id
  | succ m ih =>
    intro h
    rw [List.replicate_succ', ← List.append_assoc] at h
    exact ih (infix_of_infix_concat hne hs h)

theorem stripSlash_spec (l : List Char) :
    ∃ n, l = stripSlash l ++ List.replicate n '/' := by
  refine ⟨(l.reverse.takeWhile (fun c => c == '/')).length, ?_⟩
  have htake : l.reverse.takeWhile (fun c => c == '/')
      = List.replicate
          (l.reverse.takeWhile (fun c => c == '/')).length '/' := by
    apply List.eq_replicate_of_mem
    intro b hb
    have hpb := List.mem_takeWhile_imp hb
    simpa using hpb
  calc l = l.reverse.reverse := l.reverse_reverse.symm
    _ = (l.reverse.takeWhile (fun c => c == '/')
          ++ l.reverse.dropWhile (fun c => c == '/')).reverse := by
        rw [List.takeWhile_append_dropWhile]
    _ = (l.reverse.dropWhile (fun c => c == '/')).reverse
          ++ (l.reverse.takeWhile (fun c => c == '/')).reverse := by
        rw [List.reverse_append]
    _ = stripSlash l ++ (l.reverse.takeWhile (fun c => c == '/')).reverse := by
        rw [stripSlash]
    _ = stripSlash l
          ++ List.replicate
              (l.reverse.takeWhile (fun c => c == '/')).length '/' := by
        conv_lhs => rw [htake]
        rw [List.reverse_replicate]

theorem dropWhile_self_idem {α : Type} (p : α → Bool) (l : List α) :
    (l.dropWhile p).dropWhile p = l.dropWhile p := by
  induction l with
  | nil => simp
  | cons a t ih =>
    by_cases hp : p a
    · simp [List.dropWhile_cons_of_pos hp, ih]
    · simp [List.dropWhile_cons_of_neg hp, hp]

theorem stripSlash_idem (l : List Char) :
    stripSlash (stripSlash l) = stripSlash l := by
  simp only [stripSlash, List.reverse_reverse]
  rw [dropWhile_self_idem]

/-- The National Jeweler category/index-page denylist of
`is_relevant_url` (`testCollector.py` lines 621-648). -/
def national_jeweler_excluded : List String :=
  [ "https://nationaljeweler.com/",
    "https://nationaljeweler.com/industry",
    "https://nationaljeweler.com/industry/industry-other",
    "https://nationaljeweler.com/industry/independents",
    "https://nationaljeweler.com/industry/events-awards",
    "https://nationaljeweler.com/industry/financials",
    "https://nationaljeweler.com/industry/supplier-bulletin",
    "https://nationaljeweler.com/industry/technology",
    "https://nationaljeweler.com/industry/surveys",
    "https://nationaljeweler.com/industry/policies-issues",
    "https://nationaljeweler.com/industry/crime",
    "https://nationaljeweler.com/industry/majors",
    "https://nationaljeweler.com/diamonds-gems",
    "https://nationaljeweler.com/diamonds-gems/diamonds-gems-other",
    "https://nationaljeweler.com/diamonds-gems/lab-grown",
    "https://nationaljeweler.com/diamonds-gems/grading",
    "https://nationaljeweler.com/diamonds-gems/sourcing",
    "https://nationaljeweler.com/style",
    "https://nationaljeweler.com/style/style-other",
    "https://nationaljeweler.com/style/trends",
    "https://nationaljeweler.com/style/auctions",
    "https://nationaljeweler.com/style/watches",
    "https://nationaljeweler.com/style/collections",
    "https://nationaljeweler.com/opinions",
    "https://nationaljeweler.com/opinions/editors",
    "https://nationaljeweler.com/opinions/columnists" ]

/-- `is_relevant_url(url)` (lines 616-657): reject a URL that matches a
denylist entry exactly or after stripping its trailing slashes; otherwise
accept iff the lower-cased URL contains at least one configured keyword. -/
def is_relevant_url (url : String) : Bool :=
  let url_lower := lowerChars url
  let url_clean := stripSlash url.toList
  if url_clean ∈ national_jeweler_excluded.map String.toList
      ∨ url.toList ∈ national_jeweler_excluded.map String.toList then
    false
  else
    luxury_keywords.any (fun kw => occursIn (lowerChars kw) url_lower)

/-- C7: `is_relevant_url` rejects every trailing-slash variant of a
denylisted category/index URL regardless of its keyword content, and for
every other URL it accepts exactly when the lower-cased URL contains at
least one configured keyword as a substring. -/
theorem url_filter_spec (v : String) :
    ((∃ e ∈ national_jeweler_excluded,
        stripSlash v.toList = stripSlash e.toList) →
      is_relevant_url v = false)
    ∧ ((∀ e ∈ national_jeweler_excluded,
        stripSlash v.toList ≠ stripSlash e.toList) →
      (is_relevant_url v = true
        ↔ ∃ kw ∈ luxury_keywords,
            occursIn (lowerChars kw) (lowerChars v) = true)) := by
  constructor
  · rintro ⟨e, he, hv⟩
    by_cases hcond : stripSlash v.toList
          ∈ national_jeweler_excluded.map String.toList
        ∨ v.toList ∈ national_jeweler_excluded.map String.toList
    · simp only [is_relevant_url]
      rw [if_pos hcond]
    · have hall : ∀ e ∈ national_jeweler_excluded,
          e = "https://nationaljeweler.com/"
          ∨ stripSlash e.toList = e.toList := by decide
      rcases hall e he with hroot | hself
      · subst hroot
        have hbase : stripSlash ("https://nationaljeweler.com/".toList)
            = "https://nationaljeweler.com".toList := by decide
        rw [hbase] at hv
        obtain ⟨n, hdecomp⟩ := stripSlash_spec v.toList
        rw [hv] at hdecomp
        simp only [is_relevant_url]
        rw [if_neg hcond]
        apply List.any_eq_false.mpr
        intro kw hkw
        simp only [Bool.not_eq_true]
        by_contra hocc
        simp only [Bool.not_eq_false] at hocc
        have hlow : lowerChars v
            = "https://nationaljeweler.com".toList ++ List.replicate n '/' := by
          have hmapbase :
              ("https://nationaljeweler.com".toList).map Char.toLower
              = "https://nationaljeweler.com".toList := by decide
          have hsl : Char.toLower '/' = '/' := by decide
          simp only [lowerChars, hdecomp, List.map_append, hmapbase,
            List.map_replicate, hsl]
        rw [hlow] at hocc
        have hinf := (occursIn_iff _ _).mp hocc
        have hne : lowerChars kw ≠ [] ∧ ('/' : Char) ∉ lowerChars kw := by
          have hd : ∀ kw ∈ luxury_keywords,
              lowerChars kw ≠ [] ∧ ('/' : Char) ∉ lowerChars kw := by decide
          exact hd kw hkw
        have hbaseinf := infix_append_replicate_slash hne.1 hne.2 n hinf
        have hnokw : ∀ kw ∈ luxury_keywords,
            occursIn (lowerChars kw)
              ("https://nationaljeweler.com".toList) = false := by decide
        have := (occursIn_iff (lowerChars kw)
            ("https://nationaljeweler.com".toList)).mpr hbaseinf
        rw [hnokw kw hkw] at this
        exact Bool.false_ne_true this
      · exact absurd
          (Or.inl (by rw [hv, hself]; exact List.mem_map_of_mem _ he)) hcond
  · intro hne
    have hcond : ¬ (stripSlash v.toList
          ∈ national_jeweler_excluded.map String.toList
        ∨ v.toList ∈ national_jeweler_excluded.map String.toList) := by
      rintro (h1 | h2)
      · obtain ⟨e, he, heq⟩ := List.mem_map.mp h1
        exact hne e he (by rw [heq, stripSlash_idem])
      · obtain ⟨e, he, heq⟩ := List.mem_map.mp h2
        exact hne e he (by rw [heq])
    simp only [is_relevant_url]
    rw [if_neg hcond]
    simp only [List.any_eq_true]

/-- Concrete instance of C7: a trailing-slash variant of the denylisted
watches category page is rejected although it contains the keyword
"watches", while an ordinary keyword-bearing URL is accepted. -/
theorem url_filter_spec_witness :
    is_relevant_url "https://nationaljeweler.com/style/watches/" = false
    ∧ is_relevant_url "https://example.com/diamond-rings" = true :=
  ⟨ (url_filter_spec "https://nationaljeweler.com/style/watches/").1
      ⟨"https://nationaljeweler.com/style/watches", by decide, by decide⟩,
    ((url_filter_spec "https://example.com/diamond-rings").2
        (by decide)).mpr
      ⟨"diamond", by decide, by decide⟩ ⟩

/-- A sitemap last-modified value: either the `lastmod` string carried by
the document (parsed to a datetime in the source, with the parse failure
branch also falling back to "now"), or the "now" default used when
`lastmod` is absent. -/
inductive Lastmod where
  | parsed (s : String)
  | now
deriving DecidableEq

/-- Lastmod handling of the sitemap resolvers: keep the element text when
present, default to "now" when absent. -/
def parse_lastmod : Option String → Lastmod
  | some s => Lastmod.parsed s
  | none => Lastmod.now

/-- The `ArticleCandidate` dataclass (`testCollector.py` lines 31-41);
`published_date` is modelled by `Lastmod`, the score by a rational. -/
structure ArticleCandidate where
  title : String
  url : String
  publication : String
  published_date : Lastmod
  summary : String
  author : String := "Unknown"
  relevance_score : ℚ := 0
  keywords_found : List String := []
  full_content : String := ""
deriving DecidableEq

/-- The duplicate-removal loop at the end of `collect_from_source`
(lines 852-858): keep a candidate iff its URL was not seen before, in
input order.  `seen` models the `seen_urls` set. -/
def dedup_candidates : List ArticleCandidate → List String →
    List ArticleCandidate
  | [], _ => []
  | c :: cs, seen =>
    if c.url ∈ seen then dedup_candidates cs seen
    else c :: dedup_candidates cs (c.url :: seen)

/-- The merge-and-deduplicate shape of `collect_from_source`
(lines 805-860): sitemap candidates are collected first, feed candidates
are appended, and the merged list is deduplicated by URL with the
first-seen instance kept. -/
def collect_from_source
    (sitemap_candidates rss_candidates : List ArticleCandidate) :
    List ArticleCandidate :=
  dedup_candidates (sitemap_candidates ++ rss_candidates) []

theorem dedup_candidates_sublist (l : List ArticleCandidate)
    (seen : List String) :
    List.Sublist (dedup_candidates l seen) l := by
  induction l generalizing seen with
  | nil => simp [dedup_candidates]
  | cons c cs ih =>
    simp only [dedup_candidates]
    by_cases h : c.url ∈ seen
    · rw [if_pos h]
      exact (ih seen).cons c
    · rw [if_neg h]
      exact (ih (c.url :: seen)).cons₂ c

theorem dedup_candidates_not_seen (l : List ArticleCandidate)
    (seen : List String) :
    ∀ d ∈ dedup_candidates l seen, d.url ∉ seen := by
  induction l generalizing seen with
  | nil => simp [dedup_candidates]
  | cons c cs ih =>
    simp only [dedup_candidates]
    by_cases h : c.url ∈ seen
    · rw [if_pos h]
      exact ih seen
    · rw [if_neg h]
      intro d hd
      rcases List.mem_cons.mp hd with rfl | hd'
      · exact h
      · have := ih (c.url :: seen) d hd'
        exact fun hmem => this (List.mem_cons_of_mem _ hmem)

theorem dedup_candidates_nodup (l : List ArticleCandidate)
    (seen : List String) :
    ((dedup_candidates l seen).map (fun c => c.url)).Nodup := by
  induction l generalizing seen with
  | nil => simp [dedup_candidates]
  | cons c cs ih =>
    simp only [dedup_candidates]
    by_cases h : c.url ∈ seen
    · rw [if_pos h]
      exact ih seen
    · rw [if_neg h]
      simp only [List.map_cons, List.nodup_cons]
      refine ⟨?_, ih (c.url :: seen)⟩
      intro hmem
      obtain ⟨d, hd, hdu⟩ := List.mem_map.mp hmem
      exact dedup_candidates_not_seen cs (c.url :: seen) d hd
        (by rw [hdu]; exact List.mem_cons_self _ _)

theorem dedup_candidates_covers (l : List ArticleCandidate)
    (seen : List String) :
    ∀ c ∈ l, c.url ∉ seen →
      ∃ d ∈ dedup_candidates l seen, d.url = c.url := by
  induction l generalizing seen with
  | nil => simp
  | cons a cs ih =>
    intro c hc hseen
    simp only [dedup_candidates]
    rcases List.mem_cons.mp hc with rfl | hc'
    · rw [if_neg hseen]
      exact ⟨c, List.mem_cons_self _ _, rfl⟩
    · by_cases h : a.url ∈ seen
      · rw [if_pos h]
        exact ih seen c hc' hseen
      · rw [if_neg h]
        by_cases hsame : c.url = a.url
        · exact ⟨a, List.mem_cons_self _ _, hsame.symm⟩
        · obtain ⟨d, hd, hdu⟩ := ih (a.url :: seen) c hc'
            (by simp [hsame, hseen])
          exact ⟨d, List.mem_cons_of_mem _ hd, hdu⟩

theorem dedup_candidates_first (l : List ArticleCandidate)
    (seen : List String) :
    ∀ d ∈ dedup_candidates l seen,
      l.find? (fun c => c.url == d.url) = some d := by
  induction l generalizing seen with
  | nil => simp [dedup_candidates]
  | cons a cs ih =>
    intro d hd
    simp only [dedup_candidates] at hd
    by_cases h : a.url ∈ seen
    · rw [if_pos h] at hd
      have hdnot := dedup_candidates_not_seen cs seen d hd
      have hne : ¬ (a.url == d.url) = true := by
        simp only [beq_iff_eq]
        intro heq
        exact hdnot (heq ▸ h)
      have hstep : List.find? (fun c => c.url == d.url) (a :: cs)
          = List.find? (fun c => c.url == d.url) cs :=
        List.find?_cons_of_neg cs hne
      rw [hstep]
      exact ih seen d hd
    · rw [if_neg h] at hd
      rcases List.mem_cons.mp hd with rfl | hd'
      · rw [List.find?_cons_of_pos _ (by simp)]
      · have hdnot := dedup_candidates_not_seen cs (a.url :: seen) d hd'
        have hne : ¬ (a.url == d.url) = true := by
          simp only [beq_iff_eq]
          intro heq
          exact hdnot (heq ▸ List.mem_cons_self _ _)
        have hstep : List.find? (fun c => c.url == d.url) (a :: cs)
            = List.find? (fun c => c.url == d.url) cs :=
          List.find?_cons_of_neg cs hne
        rw [hstep]
        exact ih (a.url :: seen) d hd'

/-- C5: for every merged candidate list (sitemap candidates followed by
feed candidates), `collect_from_source` keeps a subsequence of the input
(original relative order), its URLs are pairwise distinct, every input
URL survives, and each survivor is the first-seen candidate with its
URL. -/
theorem dedup_spec (sitemap_candidates rss_candidates :
    List ArticleCandidate) :
    List.Sublist (collect_from_source sitemap_candidates rss_candidates)
        (sitemap_candidates ++ rss_candidates)
    ∧ ((collect_from_source sitemap_candidates rss_candidates).map
        (fun c => c.url)).Nodup
    ∧ (∀ c ∈ sitemap_candidates ++ rss_candidates,
        ∃ d ∈ collect_from_source sitemap_candidates rss_candidates,
          d.url = c.url)
    ∧ (∀ d ∈ collect_from_source sitemap_candidates rss_candidates,
        (sitemap_candidates ++ rss_candidates).find?
            (fun c => c.url == d.url) = some d) := by
  refine ⟨dedup_candidates_sublist _ _, dedup_candidates_nodup _ _,
    ?_, dedup_candidates_first _ _⟩
  intro c hc
  exact dedup_candidates_covers _ [] c hc (by simp)

/-- The comparison used by
`publication_articles.sort(key=lambda x: x.relevance_score, reverse=True)`
(line 1103): `a` may come before `b` iff `b`'s score is at most `a`'s. -/
def score_le (a b : ArticleCandidate) : Bool :=
  decide (b.relevance_score ≤ a.relevance_score)

/-- Python's `list.sort` is a stable sort; with `reverse=True` on the
score key it is a stable descending sort by score, modelled by
`mergeSort` with `score_le`. -/
def sort_by_score_desc (l : List ArticleCandidate) : List ArticleCandidate :=
  l.mergeSort score_le

/-- `final_3 = publication_articles[:3]` (line 1116): the per-publication
selection of `collect_top_3_per_publication` takes the first three
elements of the score-sorted list. -/
def select_top_3 (l : List ArticleCandidate) : List ArticleCandidate :=
  (sort_by_score_desc l).take 3

theorem score_le_trans (a b c : ArticleCandidate)
    (hab : score_le a b) (hbc : score_le b c) : score_le a c := by
  simp only [score_le, decide_eq_true_eq] at *
  exact le_trans hbc hab

theorem score_le_total (a b : ArticleCandidate) :
    score_le a b || score_le b a := by
  simp only [score_le, Bool.or_eq_true, decide_eq_true_eq]
  exact le_total _ _

/-- C4: for every list of at least 3 scored candidates, the selection is
3 candidates, sorted by descending score, each scoring at least as high
as every unselected candidate; the sort is a permutation of the input
and is stable (candidates of any fixed score keep their input order). -/
theorem top3_selection_spec (l : List ArticleCandidate)
    (h : 3 ≤ l.length) :
    (select_top_3 l).length = 3
    ∧ (select_top_3 l).Pairwise
        (fun a b => b.relevance_score ≤ a.relevance_score)
    ∧ (∀ a ∈ select_top_3 l, ∀ b ∈ (sort_by_score_desc l).drop 3,
        b.relevance_score ≤ a.relevance_score)
    ∧ (sort_by_score_desc l).Perm l
    ∧ (∀ q : ℚ, (sort_by_score_desc l).filter
          (fun c => decide (c.relevance_score = q))
        = l.filter (fun c => decide (c.relevance_score = q))) := by
  have hsorted : (sort_by_score_desc l).Pairwise
      (fun a b => score_le a b = true) :=
    List.sorted_mergeSort score_le_trans score_le_total l
  have hsorted' : (sort_by_score_desc l).Pairwise
      (fun a b => b.relevance_score ≤ a.relevance_score) :=
    hsorted.imp (fun hab => by
      simpa [score_le, decide_eq_true_eq] using hab)
  refine ⟨?_, ?_, ?_, List.mergeSort_perm l score_le, ?_⟩
  · simp only [select_top_3, List.length_take, sort_by_score_desc,
      List.length_mergeSort]
    omega
  · exact hsorted'.sublist (List.take_sublist _ _)
  · have hsplit : (sort_by_score_desc l).take 3
        ++ (sort_by_score_desc l).drop 3 = sort_by_score_desc l :=
      List.take_append_drop 3 _
    have hp : ((sort_by_score_desc l).take 3
        ++ (sort_by_score_desc l).drop 3).Pairwise
          (fun a b => b.relevance_score ≤ a.relevance_score) := by
      rw [hsplit]
      exact hsorted'
    exact (List.pairwise_append.mp hp).2.2
  · intro q
    have hpair : (l.filter
        (fun c => decide (c.relevance_score = q))).Pairwise
          (fun a b => score_le a b = true) := by
      apply List.pairwise_of_forall_mem_list
      intro a ha b hb
      have ha' : a.relevance_score = q := by
        have := List.of_mem_filter ha
        simpa using this
      have hb' : b.relevance_score = q := by
        have := List.of_mem_filter hb
        simpa using this
      simp [score_le, ha', hb']
    have hsub2 : List.Sublist
        (l.filter (fun c => decide (c.relevance_score = q)))
        (sort_by_score_desc l) :=
      List.sublist_mergeSort score_le_trans score_le_total hpair
        (List.filter_sublist l)
    have hsub3 : List.Sublist
        (l.filter (fun c => decide (c.relevance_score = q)))
        ((sort_by_score_desc l).filter
          (fun c => decide (c.relevance_score = q))) := by
      have h4 := hsub2.filter (fun c => decide (c.relevance_score = q))
      rw [List.filter_filter] at h4
      simpa [Bool.and_self] using h4
    have hperm : ((sort_by_score_desc l).filter
        (fun c => decide (c.relevance_score = q))).Perm
          (l.filter (fun c => decide (c.relevance_score = q))) :=
      (List.mergeSort_perm l score_le).filter _
    exact (hsub3.eq_of_length hperm.length_eq.symm).symm

/-- A candidate with only the fields the selection stage reads. -/
def mk_demo_candidate (u : String) (s : ℚ) : ArticleCandidate :=
  { title := "", url := u, publication := "Demo",
    published_date := Lastmod.now, summary := "", relevance_score := s }

/-- Four scored candidates, with a tie, for the selection witness. -/
def demo_candidates : List ArticleCandidate :=
  [ mk_demo_candidate "u1" 2, mk_demo_candidate "u2" 7,
    mk_demo_candidate "u3" 7, mk_demo_candidate "u4" 1 ]

/-- Concrete instance of C4: a 4-element candidate list yields a
3-element selection. -/
theorem top3_selection_spec_witness :
    3 ≤ demo_candidates.length ∧ (select_top_3 demo_candidates).length = 3 :=
  ⟨by decide, (top3_selection_spec demo_candidates (by decide)).1⟩

/-- A child element of a parsed sitemap document, reduced to the two
sub-elements the resolvers read: the namespaced `loc` and `lastmod`
texts (each `none` when the element lacks that child). -/
structure XmlElem where
  loc : Option String
  lastmod : Option String
deriving DecidableEq

/-- A parsed XML document as the resolvers see it: the root tag and the
list of the root's child elements. -/
structure XmlDoc where
  tag : String
  children : List XmlElem
deriving DecidableEq

/-- `fetch_urls_from_sitemap(sitemap_url)` (lines 659-689).  The
environment `net` maps a URL to the parsed document of a successful
HTTP-200 fetch, or `none` for any failure (request error, non-200, or
parse error — all collapse to the empty result in the source).  Note
that the body iterates the root's children and collects every `loc`
regardless of the root tag, and never recurses. -/
def fetch_urls_from_sitemap (net : String → Option XmlDoc)
    (sitemap_url : String) : List (String × Lastmod) :=
  match net sitemap_url with
  | none => []
  | some root =>
    root.children.filterMap
      (fun e => e.loc.map (fun l => (l, parse_lastmod e.lastmod)))

/-- The `urls` accumulation of `fetch_sitemap_articles` (lines 742-775):
if the root tag contains "sitemapindex", fetch each child sitemap's URL
list with `fetch_urls_from_sitemap` and concatenate; if it contains
"urlset", collect the child (loc, lastmod) pairs directly; otherwise no
URLs. -/
def sitemap_urls (net : String → Option XmlDoc) (root : XmlDoc) :
    List (String × Lastmod) :=
  if occursIn "sitemapindex".toList root.tag.toList then
    root.children.foldl
      (fun acc e =>
        match e.loc with
        | some l => acc ++ fetch_urls_from_sitemap net l
        | none => acc)
      []
  else if occursIn "urlset".toList root.tag.toList then
    root.children.filterMap
      (fun e => e.loc.map (fun l => (l, parse_lastmod e.lastmod)))
  else []

/-- Candidate construction in the URL-filter loop of
`fetch_sitemap_articles` (lines 780-792): title and summary empty, score
0, keywords empty. -/
def make_sitemap_candidate (publication : String)
    (p : String × Lastmod) : ArticleCandidate :=
  { title := "", url := p.1, publication := publication,
    published_date := p.2, summary := "", author := "Unknown",
    relevance_score := 0, keywords_found := [], full_content := "" }

/-- The URL-relevance filtering step of `fetch_sitemap_articles`
(lines 780-792): keep a candidate for each discovered URL passing
`is_relevant_url`. -/
def sitemap_doc_candidates (net : String → Option XmlDoc)
    (publication : String) (root : XmlDoc) : List ArticleCandidate :=
  (sitemap_urls net root).filterMap
    (fun p => if is_relevant_url p.1 then
        some (make_sitemap_candidate publication p)
      else none)

/-- The response of the top-level sitemap fetch in
`fetch_sitemap_articles`, with the outcome of each of the four
body-decode strategies (lines 701-735): `text` is the transport-layer
decoded text, `utf8` the raw UTF-8 decode, `latin1` the ISO-8859-1
decode, `gzip_utf8` the manual gzip decompression followed by UTF-8;
a field is `none` when that decode step itself raises. -/
structure SitemapResponse where
  status_code : ℕ
  text : Option String
  utf8 : Option String
  latin1 : Option String
  gzip_utf8 : Option String

/-- The fixed order in which `fetch_sitemap_articles` tries its four
decode strategies. -/
def decode_strategies (r : SitemapResponse) : List (Option String) :=
  [r.text, r.utf8, r.latin1, r.gzip_utf8]

/-- The decode-and-parse fallback chain (lines 701-740): try each
strategy in order; a strategy succeeds when its decoded string exists
and parses as XML, and the first success wins. -/
def first_parse (parse : String → Option XmlDoc) :
    List (Option String) → Option XmlDoc
  | [] => none
  | d :: rest =>
    match d.bind parse with
    | some root => some root
    | none => first_parse parse rest

/-- `fetch_sitemap_articles(publication, sitemap_url)` (lines 691-803)
after the top-level fetch returned response `r`: non-200 yields no
candidates; if every decode strategy fails the function logs
"Sitemap error: Cannot parse XML" (the boolean in the result) and
returns no candidates; otherwise it resolves and filters the URL list of
the first successfully parsed document.  `parse` models
`xml.etree.ElementTree.fromstring` and `net` the nested child-sitemap
fetches. -/
def fetch_sitemap_articles (parse : String → Option XmlDoc)
    (net : String → Option XmlDoc) (publication : String)
    (r : SitemapResponse) : List ArticleCandidate × Bool :=
  if r.status_code ≠ 200 then ([], false)
  else
    match first_parse parse (decode_strategies r) with
    | none => ([], true)
    | some root => (sitemap_doc_candidates net publication root, false)

/-- C3: with a 200 response, the four decode strategies are attempted in
the fixed order transport-text, raw UTF-8, Latin-1, gzip-then-UTF-8, and
the first strategy whose string parses as XML wins; in particular a body
failing the transport-decoded parse but parsing under raw UTF-8 yields
that document's URL set, and if all four fail the function returns an
empty candidate list together with the error message (no exception). -/
theorem sitemap_decode_chain_spec (parse : String → Option XmlDoc)
    (net : String → Option XmlDoc) (publication : String)
    (r : SitemapResponse) (h200 : r.status_code = 200) :
    (∀ root, r.text.bind parse = some root →
      fetch_sitemap_articles parse net publication r
        = (sitemap_doc_candidates net publication root, false))
    ∧ (∀ root, r.text.bind parse = none →
        r.utf8.bind parse = some root →
      fetch_sitemap_articles parse net publication r
        = (sitemap_doc_candidates net publication root, false))
    ∧ (∀ root, r.text.bind parse = none → r.utf8.bind parse = none →
        r.latin1.bind parse = some root →
      fetch_sitemap_articles parse net publication r
        = (sitemap_doc_candidates net publication root, false))
    ∧ (∀ root, r.text.bind parse = none → r.utf8.bind parse = none →
        r.latin1.bind parse = none → r.gzip_utf8.bind parse = some root →
      fetch_sitemap_articles parse net publication r
        = (sitemap_doc_candidates net publication root, false))
    ∧ (r.text.bind parse = none → r.utf8.bind parse = none →
        r.latin1.bind parse = none → r.gzip_utf8.bind parse = none →
      fetch_sitemap_articles parse net publication r = ([], true)) := by
  refine ⟨?_, ?_, ?_, ?_, ?_⟩
  · intro root h1
    simp [fetch_sitemap_articles, decode_strategies, first_parse, h200, h1]
  · intro root h1 h2
    simp [fetch_sitemap_articles, decode_strategies, first_parse, h200,
      h1, h2]
  · intro root h1 h2 h3
    simp [fetch_sitemap_articles, decode_strategies, first_parse, h200,
      h1, h2, h3]
  · intro root h1 h2 h3 h4
    simp [fetch_sitemap_articles, decode_strategies, first_parse, h200,
      h1, h2, h3, h4]
  · intro h1 h2 h3 h4
    simp [fetch_sitemap_articles, decode_strategies, first_parse, h200,
      h1, h2, h3, h4]

/-- A parser for the decode-chain witness: only the body "wellformed"
parses, to an empty url-set. -/
def demo_parse : String → Option XmlDoc := fun s =>
  if s = "wellformed" then some { tag := "urlset", children := [] }
  else none

/-- An environment with no reachable child sitemaps, for the decode-chain
witness. -/
def demo_net_none : String → Option XmlDoc := fun _ => none

/-- A 200 response whose transport decode is garbage but whose raw UTF-8
decode parses. -/
def demo_response_utf8 : SitemapResponse :=
  { status_code := 200, text := some "mojibake",
    utf8 := some "wellformed", latin1 := none, gzip_utf8 := none }

/-- A 200 response for which all four decode strategies fail. -/
def demo_response_bad : SitemapResponse :=
  { status_code := 200, text := some "mojibake",
    utf8 := some "mojibake", latin1 := some "mojibake",
    gzip_utf8 := none }

/-- Concrete instance of C3: the UTF-8 fallback yields the parsed
document's candidates, and four failures yield empty-with-error. -/
theorem sitemap_decode_chain_spec_witness :
    fetch_sitemap_articles demo_parse demo_net_none "Demo"
        demo_response_utf8
      = (sitemap_doc_candidates demo_net_none "Demo"
          { tag := "urlset", children := [] }, false)
    ∧ fetch_sitemap_articles demo_parse demo_net_none "Demo"
        demo_response_bad
      = ([], true) :=
  ⟨ (sitemap_decode_chain_spec demo_parse demo_net_none "Demo"
        demo_response_utf8 rfl).2.1
      { tag := "urlset", children := [] } (by decide) (by decide),
    (sitemap_decode_chain_spec demo_parse demo_net_none "Demo"
        demo_response_bad rfl).2.2.2.2
      (by decide) (by decide) (by decide) (by decide) ⟩

/-- A two-level sitemap environment: two child sitemaps of five page
URLs each. -/
def demo_net_two : String → Option XmlDoc := fun u =>
  if u = "https://ex.com/s1.xml" then
    some { tag := "urlset", children :=
      [ { loc := some "https://ex.com/a1", lastmod := some "2025-01-01" },
        { loc := some "https://ex.com/a2", lastmod := some "2025-01-02" },
        { loc := some "https://ex.com/a3", lastmod := none },
        { loc := some "https://ex.com/a4", lastmod := none },
        { loc := some "https://ex.com/a5", lastmod := none } ] }
  else if u = "https://ex.com/s2.xml" then
    some { tag := "urlset", children :=
      [ { loc := some "https://ex.com/b1", lastmod := some "2025-02-01" },
        { loc := some "https://ex.com/b2", lastmod := none },
        { loc := some "https://ex.com/b3", lastmod := none },
        { loc := some "https://ex.com/b4", lastmod := none },
        { loc := some "https://ex.com/b5", lastmod := none } ] }
  else none

/-- A sitemap index referencing the two child sitemaps of
`demo_net_two`. -/
def demo_index_two : XmlDoc :=
  { tag := "sitemapindex", children :=
    [ { loc := some "https://ex.com/s1.xml", lastmod := none },
      { loc := some "https://ex.com/s2.xml", lastmod := none } ] }

/-- A three-level environment: the middle document is itself a sitemap
index whose child is a leaf url-set with one page URL. -/
def demo_net_deep : String → Option XmlDoc := fun u =>
  if u = "https://ex.com/mid.xml" then
    some { tag := "sitemapindex", children :=
      [ { loc := some "https://ex.com/leaf.xml",
          lastmod := some "2025-03-03" } ] }
  else if u = "https://ex.com/leaf.xml" then
    some { tag := "urlset", children :=
      [ { loc := some "https://ex.com/page1", lastmod := none } ] }
  else none

/-- A sitemap index whose single child is itself a sitemap index. -/
def demo_index_deep : XmlDoc :=
  { tag := "sitemapindex", children :=
    [ { loc := some "https://ex.com/mid.xml", lastmod := none } ] }

/-- C2 (failing input): the resolver flattens exactly one level of
sitemap index — the two-child two-level scenario does return all 10
(url, lastmod) pairs, but for an index nested one level deeper the
grandchild sitemap URL is returned as if it were a page URL and its page
"https://ex.com/page1" is never reached, because
`fetch_urls_from_sitemap` never recurses. -/
theorem sitemap_recursion_depth_limited :
    sitemap_urls demo_net_two demo_index_two
      = [ ("https://ex.com/a1", Lastmod.parsed "2025-01-01"),
          ("https://ex.com/a2", Lastmod.parsed "2025-01-02"),
          ("https://ex.com/a3", Lastmod.now),
          ("https://ex.com/a4", Lastmod.now),
          ("https://ex.com/a5", Lastmod.now),
          ("https://ex.com/b1", Lastmod.parsed "2025-02-01"),
          ("https://ex.com/b2", Lastmod.now),
          ("https://ex.com/b3", Lastmod.now),
          ("https://ex.com/b4", Lastmod.now),
          ("https://ex.com/b5", Lastmod.now) ]
    ∧ (sitemap_urls demo_net_two demo_index_two).length = 10
    ∧ sitemap_urls demo_net_deep demo_index_deep
      = [("https://ex.com/leaf.xml", Lastmod.parsed "2025-03-03")]
    ∧ (∀ p ∈ sitemap_urls demo_net_deep demo_index_deep,
        p.1 ≠ "https://ex.com/page1") := by
  decide

/-- The structured article produced by the external extraction library
(`newspaper.Article` after `parse()`), reduced to the fields
`extract_full_content` reads. -/
structure ParsedArticle where
  title : String
  text : String
  meta_description : String
deriving DecidableEq

/-- The outcome of the per-candidate fetch inside
`extract_full_content`: a raised request exception, or a response with
its status code and the article parsed from its body. -/
inductive FetchOutcome where
  | error
  | response (status : ℕ) (article : ParsedArticle)

/-- `extract_full_content(candidate)` (lines 989-1043).  Request errors
and non-200 statuses yield `None`; an extraction shorter than 150
characters yields `None` (Python's `not article.text` check is subsumed,
the empty string having length 0); otherwise the candidate is enriched
with full text, a title backfill, the Stage-2 score and keywords, the
resolved author (`resolve_author` models `extract_author`, whose
HTML/JSON-LD inputs are outside this model), and a longer
meta-description as summary — and returned whatever its score is. -/
def extract_full_content (resolve_author : ParsedArticle → String)
    (candidate : ArticleCandidate) (o : FetchOutcome) :
    Option ArticleCandidate :=
  match o with
  | FetchOutcome.error => none
  | FetchOutcome.response status article =>
    if status ≠ 200 then none
    else if article.text.length < 150 then none
    else
      let c1 := { candidate with full_content := article.text }
      let c2 := if c1.title = "" ∧ article.title ≠ "" then
          { c1 with title := article.title }
        else c1
      let scored := calculate_relevance_score c2.title article.text
      let c3 := { c2 with
        relevance_score := scored.1
        keywords_found := scored.2
        author := resolve_author article }
      let c4 := if article.meta_description ≠ ""
          ∧ c3.summary.length < article.meta_description.length then
          { c3 with summary := article.meta_description }
        else c3
      some c4

/-- Stage 2 of `collect_top_3_per_publication` (lines 1083-1100):
download at most 100 candidates and keep every successful extraction.
`world` gives each candidate's fetch outcome. -/
def stage2_articles (resolve_author : ParsedArticle → String)
    (world : ArticleCandidate → FetchOutcome)
    (candidates : List ArticleCandidate) : List ArticleCandidate :=
  (candidates.take 100).filterMap
    (fun c => extract_full_content resolve_author c (world c))

/-- Stage 3 of `collect_top_3_per_publication` (lines 1102-1116): sort
the extracted articles by descending score and keep the top 3. -/
def final_selection (resolve_author : ParsedArticle → String)
    (world : ArticleCandidate → FetchOutcome)
    (candidates : List ArticleCandidate) : List ArticleCandidate :=
  select_top_3 (stage2_articles resolve_author world candidates)

/-- 200 characters of filler containing no configured keyword. -/
def demo_zstring : String := String.mk (List.replicate 200 'z')

/-- A parsed article whose text matches no keyword at all. -/
def demo_article : ParsedArticle :=
  { title := "zzz", text := demo_zstring, meta_description := "" }

/-- An author resolver that always falls back to the sentinel. -/
def demo_author : ParsedArticle → String := fun _ => "Unknown"

/-- A sitemap-sourced candidate for the zero-score demonstration. -/
def demo_candidate0 : ArticleCandidate :=
  make_sitemap_candidate "Demo" ("https://ex.com/zzz", Lastmod.now)

/-- A fetch world in which every candidate downloads `demo_article`. -/
def demo_world : ArticleCandidate → FetchOutcome :=
  fun _ => FetchOutcome.response 200 demo_article

/-- The enrichment `extract_full_content` produces for
`demo_candidate0` under `demo_world`. -/
def demo_enriched : ArticleCandidate :=
  { title := "zzz", url := "https://ex.com/zzz", publication := "Demo",
    published_date := Lastmod.now, summary := "", author := "Unknown",
    relevance_score := 0, keywords_found := [],
    full_content := demo_zstring }

set_option maxRecDepth 8000 in
/-- C8: the content stage applies no minimum-score filter — a 200
response with at least 150 characters of text always yields an enriched
candidate whatever its Stage-2 score, only fetch failures and short
extractions are discarded — and a candidate whose full content matches
zero keywords (score 0.0) still reaches the final top-3 output. -/
theorem content_stage_no_score_threshold :
    (∀ (ra : ParsedArticle → String) (c : ArticleCandidate)
        (a : ParsedArticle), 150 ≤ a.text.length →
      (extract_full_content ra c (FetchOutcome.response 200 a)).isSome
        = true)
    ∧ (∀ (ra : ParsedArticle → String) (c : ArticleCandidate),
      extract_full_content ra c FetchOutcome.error = none)
    ∧ (∀ (ra : ParsedArticle → String) (c : ArticleCandidate)
        (st : ℕ) (a : ParsedArticle), a.text.length < 150 →
      extract_full_content ra c (FetchOutcome.response st a) = none)
    ∧ (final_selection demo_author demo_world [demo_candidate0]).map
        (fun c => c.relevance_score) = [0] := by
  refine ⟨?_, ?_, ?_, ?_⟩
  · intro ra c a hlen
    simp only [extract_full_content]
    rw [if_neg (by simp), if_neg (by omega)]
    simp
  · intro ra c
    rfl
  · intro ra c st a hlen
    simp only [extract_full_content]
    by_cases hst : st ≠ 200
    · rw [if_pos hst]
    · rw [if_neg hst, if_pos hlen]
  · have hstage : stage2_articles demo_author demo_world
        [demo_candidate0] = [demo_enriched] := by decide
    simp only [final_selection, hstage, select_top_3,
      sort_by_score_desc, List.mergeSort_singleton, List.take_cons,
      List.take_nil, List.map_cons, List.map_nil]
    rfl

set_option maxRecDepth 8000 in
/-- Concrete instance of C8: the keyword-free 200-character article is
accepted by the content stage. -/
theorem content_stage_no_score_threshold_witness :
    150 ≤ demo_article.text.length
    ∧ (extract_full_content demo_author demo_candidate0
        (FetchOutcome.response 200 demo_article)).isSome = true :=
  ⟨by decide,
   content_stage_no_score_threshold.1 demo_author demo_candidate0
     demo_article (by decide)⟩
